import Mathlib

/-!
Verification development for the `shai` agent execution core.

This file gives a shallow embedding of the parts of the repository that the
checked properties talk about:

* `src/shai-core/src/tools/types.rs` — `ToolCapability`, `ToolCall`,
  `ToolResult`, the `Tool::execute_json` default implementation;
* `src/shai-core/src/agent/events.rs` — public and internal agent events,
  `PermissionRequest`, `PermissionResponse`, `UserResponse`;
* `src/shai-core/src/agent/actions/tools.rs` — the per-tool-call pipeline
  (`tool_exist`, `request_permission_if_needed`, `spawn_tool_exec`,
  `spawn_tool_static`) and the batch aggregator (`spawn_tools`);
* `src/shai-core/src/agent/actions/brain.rs` — `process_next_step` and
  `handle_brain_error`;
* `src/shai-core/src/agent/states/starting.rs` — `handle_agent_initialized`.

Modelling conventions:

* JSON values (`serde_json::Value`) are the inductive `Json` below; hash maps
  become association lists.
* Async effects become explicit data: each embedded function returns, besides
  its value, the ordered list of externally visible actions it performs
  (public event sends, trace appends, claim-manager reads, tool invocations).
* A `tokio::select!` between two futures is modelled with first-ready
  semantics: the branch whose future became ready first wins.  In particular,
  when the cancellation token fired before the racing task produced its value,
  the cancellation branch is taken.
* Timestamps and durations (`chrono`) carry no information relevant to the
  properties and are dropped from the embedded events.
* `Option<broadcast::Sender<AgentEvent>>` (field `socket.tx_event`) is
  modelled as a Boolean `interactive`: `true` means the sender is present.
* The `uuid` request id generated by `request_permission_if_needed` is taken
  as an explicit argument `reqId`.
-/

/-- Rust `Result<T, E>` (`Ok`/`Err`). -/
inductive RustResult (α : Type) (ε : Type) where
  | ok (value : α)
  | err (error : ε)
deriving DecidableEq, Repr

/-- `serde_json::Value`. -/
inductive Json where
  | null
  | bool (b : Bool)
  | num (n : Int)
  | str (s : String)
  | arr (elems : List Json)
  | obj (fields : List (String × Json))

/-- `ToolCapability` from `src/shai-core/src/tools/types.rs` (`Read`, `Write`,
`Network`). -/
inductive ToolCapability where
  | read
  | write
  | network
deriving DecidableEq, Repr

/-- `openai_dive` `Function` part of a tool call: `name` and the raw
`arguments` JSON string. -/
structure LlmFunction where
  name : String
  arguments : String
deriving DecidableEq, Repr

/-- `openai_dive::v1::resources::chat::ToolCall` (aliased `LlmToolCall` in
`actions/tools.rs`): an id plus the function name/arguments. -/
structure LlmToolCall where
  id : String
  function : LlmFunction
deriving DecidableEq, Repr

/-- `ToolCall` from `src/shai-core/src/tools/types.rs`. -/
structure ToolCall where
  tool_call_id : String
  tool_name : String
  parameters : Json

/-- `ToolResult` from `src/shai-core/src/tools/types.rs`; metadata hash maps
become association lists. -/
inductive ToolResult where
  | success (output : String) (metadata : Option (List (String × Json)))
  | error (error : String) (metadata : Option (List (String × Json)))
  | denied

namespace ToolResult

/-- `ToolResult::error` constructor helper (metadata `None`). -/
def mkError (e : String) : ToolResult := .error e none

/-- `ToolResult::success` constructor helper (metadata `None`). -/
def mkSuccess (o : String) : ToolResult := .success o none

/-- `impl fmt::Display for ToolResult` in `tools/types.rs`. -/
def toString : ToolResult → String
  | .success o _ => o
  | .error e _ => "The tool failed with the following error: " ++ e
  | .denied => "The tool call was rejected by the user"

/-- `ToolResult::is_denied`. -/
def is_denied : ToolResult → Bool
  | .denied => true
  | _ => false

/-- `ToolResult::is_error`. -/
def is_error : ToolResult → Bool
  | .error _ _ => true
  | _ => false

/-- `ToolResult::is_success`. -/
def is_success : ToolResult → Bool
  | .success _ _ => true
  | _ => false

end ToolResult

/-- `openai_dive` `ChatMessage`, restricted to the fields the agent core
reads: `System`, `User`, `Assistant { content, reasoning_content, tool_calls }`
and `Tool { tool_call_id, content }`.  `ChatMessageContent::Text` payloads are
plain strings. -/
inductive ChatMessage where
  | system (content : String)
  | user (content : String)
  | assistant (content : Option String) (reasoning_content : Option String)
      (tool_calls : Option (List LlmToolCall))
  | tool (tool_call_id : String) (content : String)
deriving DecidableEq, Repr

/-- `AgentError`.  The declaring module is not part of the sources at hand;
Modelled from the spec: §7 lists the error kinds `LlmError`,
`InvalidResponse`, `InvalidState`, `ExecutionError`, `ConfigurationError`,
`SessionClosed`, `TimeoutError`, and the in-scope callers
(`actions/brain.rs`, `states/starting.rs`) construct `InvalidResponse` and
`InvalidState` with a message string. -/
inductive AgentError where
  | llmError (msg : String)
  | invalidResponse (msg : String)
  | invalidState (msg : String)
  | executionError (msg : String)
  | configurationError (msg : String)
  | sessionClosed (msg : String)
  | timeoutError (msg : String)
deriving DecidableEq, Repr

/-- `ThinkerFlowControl` from `src/shai-core/src/agent/brain.rs`. -/
inductive ThinkerFlowControl where
  | agentContinue
  | agentPause
deriving DecidableEq, Repr

/-- `ThinkerDecision` from `src/shai-core/src/agent/brain.rs`. -/
structure ThinkerDecision where
  message : ChatMessage
  flow : ThinkerFlowControl
  token_usage : Option (Nat × Nat)
deriving DecidableEq, Repr

/-- `PermissionResponse` from `src/shai-core/src/agent/events.rs`. -/
inductive PermissionResponse where
  | allow
  | allowAlways
  | forbidden
  | deny
  | noPermissionSystem
deriving DecidableEq, Repr

/-- `UserResponse` from `src/shai-core/src/agent/events.rs`. -/
inductive UserResponse where
  | text (s : String)
  | choice (i : Nat)
  | confirmation (b : Bool)
  | cancel
  | noUser

/-- `PermissionRequest` from `src/shai-core/src/agent/events.rs`. -/
structure PermissionRequest where
  tool_name : String
  operation : String
  call : ToolCall
  preview : Option ToolResult

/-- Public `AgentEvent` from `src/shai-core/src/agent/events.rs`, with
timestamps and durations dropped (see header).  `StatusChanged` payloads,
unused by the checked properties, are omitted. -/
inductive AgentEvent where
  | thinkingStart
  | brainResult (thought : RustResult ChatMessage AgentError)
  | toolCallStarted (call : ToolCall)
  | toolCallCompleted (call : ToolCall) (result : ToolResult)
  | userInput (input : String)
  | permissionRequired (request_id : String) (request : PermissionRequest)
  | error (error : String)
  | completed (success : Bool) (message : String)
  | tokenUsage (input_tokens : Nat) (output_tokens : Nat)

/-- `InternalAgentEvent` from `src/shai-core/src/agent/events.rs`. -/
inductive InternalAgentEvent where
  | agentInitialized
  | cancelTask
  | thinkingStart
  | brainResult (result : RustResult ThinkerDecision AgentError)
  | toolCallStarted (call : ToolCall)
  | toolCallCompleted (call : ToolCall) (result : ToolResult)
  | toolsCompleted (any_denied : Bool)
  | userResponseReceived (request_id : String) (response : UserResponse)
  | permissionResponseReceived (request_id : String) (response : PermissionResponse)

/-- `InternalAgentState` from the agent module (`states`), with the
`Processing` timestamp and cancellation handle dropped. -/
inductive InternalAgentState where
  | starting
  | running
  | processing (task_name : String)
  | paused
  | completed (success : Bool)
  | failed (error : String)
deriving DecidableEq, Repr

/-! ## Canonical JSON rendering and the claim manager -/

mutual

/-- A canonical textual rendering of a JSON value, used as the
parameter fingerprint of permission claims (spec §4.2 and design note:
"a deterministic parameter fingerprint (e.g. canonical-JSON hash)"). -/
def Json.canonical : Json → String
  | .null => "null"
  | .bool b => if b then "true" else "false"
  | .num n => ToString.toString n
  | .str s => "\"" ++ s ++ "\""
  | .arr elems => "[" ++ Json.canonicalElems elems ++ "]"
  | .obj fields => "<" ++ Json.canonicalFields fields ++ ">"

/-- Comma-separated canonical rendering of a JSON array's elements. -/
def Json.canonicalElems : List Json → String
  | [] => ""
  | [x] => Json.canonical x
  | x :: y :: rest => Json.canonical x ++ "," ++ Json.canonicalElems (y :: rest)

/-- Comma-separated canonical rendering of a JSON object's fields. -/
def Json.canonicalFields : List (String × Json) → String
  | [] => ""
  | [(k, v)] => "\"" ++ k ++ "\":" ++ Json.canonical v
  | (k, v) :: y :: rest =>
      "\"" ++ k ++ "\":" ++ Json.canonical v ++ "," ++ Json.canonicalFields (y :: rest)

end

/-- Modelled from the spec: the module `agent/claims.rs` declaring
`ClaimManager` is not among the sources at hand — only its callers are
(`agent/builder.rs`, `agent/agent.rs`, `agent/actions/tools.rs`).  Spec §4.2:
a set of `(tool_name, parameter_fingerprint)` grants with scope one-shot or
always, plus a global `sudo` flag. -/
structure ClaimManager where
  sudo_enabled : Bool
  grants : List (String × String)
  always_grants : List String

/-- Modelled from the spec: the parameter fingerprint is implementation
defined but deterministic; we use the canonical JSON rendering. -/
def ClaimManager.fingerprint (params : Json) : String :=
  Json.canonical params

/-- Modelled from the spec: §4.2 "`is_permitted` returns true iff sudo is
set, or an exact `(tool, fingerprint)` grant exists, or an `always(tool)`
grant exists." -/
def ClaimManager.is_permitted (cm : ClaimManager) (tool : String) (params : Json) : Bool :=
  cm.sudo_enabled
    || cm.grants.contains (tool, ClaimManager.fingerprint params)
    || cm.always_grants.contains tool

/-! ## Tools -/

/-- The typed side of the `Tool` trait in `src/shai-core/src/tools/types.rs`:
an associated `Params` type, `serde_json::from_value` deserialization
(abstracted as `parseParams`, returning the serde error message on failure)
and the typed `execute`.  The cancellation token argument of `execute` is
elided: `execute_json` passes it through unchanged. -/
structure TypedTool (Params : Type) where
  capabilities : List ToolCapability
  parseParams : Json → RustResult Params String
  executeTyped : Params → ToolResult

/-- `Tool::execute_json` default implementation from
`src/shai-core/src/tools/types.rs` lines 135-144: deserialize the JSON into
typed parameters, returning `ToolResult::error` on failure, otherwise call
the typed `execute`. -/
def TypedTool.execute_json {Params : Type} (t : TypedTool Params) (params : Json) : ToolResult :=
  match t.parseParams params with
  | .err e => ToolResult.mkError ("Parameter deserialization failed: " ++ e)
  | .ok p => t.executeTyped p

/-- The `AnyTool` view consumed by the scheduler
(`src/shai-core/src/tools/types.rs` trait `AnyTool`): a name, capabilities,
`execute_json` and `execute_preview_json`.  The two async methods are
abstracted as the results they produce when run to completion. -/
structure ToolDef where
  name : String
  capabilities : List ToolCapability
  execJson : Json → ToolResult
  previewJson : Json → Option ToolResult

/-! ## The tool scheduler pipeline (`src/shai-core/src/agent/actions/tools.rs`)

Each function returns the ordered list of externally visible actions it
performs, in the order the source performs them. -/

/-- Externally visible actions of a tool task: a public event broadcast
(`tx.send`), a trace append (`trace.write().await.push`), a claim-manager
read (`claims.read().await.is_permitted`), a tool invocation
(`tool.execute_json`). -/
inductive ToolAction where
  | publish (e : AgentEvent)
  | appendTrace (m : ChatMessage)
  | consultClaims (tool_name : String) (params : Json)
  | execTool (tool_name : String) (params : Json)

/-- What the permission-wait loop observes, in arrival order: either an
internal event received from `internal_rx`, or the shared cancellation token
firing.  An exhausted list models the internal channel closing. -/
inductive WaitStep where
  | recv (e : InternalAgentEvent)
  | cancelFired

/-- Environment of one tool task: the interleaving seen while awaiting the
permission response, and whether the cancellation token fires while
`tool.execute_json` is in flight. -/
structure ExecEnv where
  steps : List WaitStep
  cancelDuringExec : Bool

/-- `matches!(response, PermissionResponse::Allow | PermissionResponse::AllowAlways)`
from `request_permission_if_needed`. -/
def PermissionResponse.grantsExecution : PermissionResponse → Bool
  | .allow => true
  | .allowAlways => true
  | _ => false

/-- The `loop`/`select!` at the end of `request_permission_if_needed`
(lines 242-257): scan the arrivals in order; the first matching
`PermissionResponseReceived` resolves the wait (other events are skipped);
the cancellation token resolves it with `Ok(false)`; a closed channel
resolves it with `Ok(false)`.  Returns `(granted, exited via cancellation)`. -/
def waitPermission (reqId : String) : List WaitStep → Bool × Bool
  | [] => (false, false)
  | WaitStep.cancelFired :: _ => (false, true)
  | WaitStep.recv (InternalAgentEvent.permissionResponseReceived rid resp) :: rest =>
      if rid = reqId then (resp.grantsExecution, false)
      else waitPermission reqId rest
  | WaitStep.recv _ :: rest => waitPermission reqId rest

/-- Result of `request_permission_if_needed`: `Ok(granted)` or
`Err(preview error result)`, together with the published actions and whether
the wait ended because the cancellation token fired. -/
structure PermOut where
  outcome : RustResult Bool ToolResult
  log : List ToolAction
  cancelFired : Bool

/-- `request_permission_if_needed` from `actions/tools.rs` lines 207-258.
`interactive = false` models `public_event_tx == None` (return `Ok(false)`
without asking).  Otherwise obtain the preview; if it is an `Error` result,
short-circuit with `Err` of that result; else publish `PermissionRequired`
with the fresh `reqId` and await a matching response or cancellation. -/
def request_permission_if_needed (call : ToolCall) (tool : ToolDef)
    (interactive : Bool) (reqId : String) (steps : List WaitStep) : PermOut :=
  if interactive = false then
    { outcome := RustResult.ok false, log := [], cancelFired := false }
  else
    let preview := tool.previewJson call.parameters
    match preview with
    | some (ToolResult.error e m) =>
        { outcome := RustResult.err (ToolResult.error e m), log := [], cancelFired := false }
    | _ =>
        let w := waitPermission reqId steps
        { outcome := RustResult.ok w.1,
          log := [ToolAction.publish (AgentEvent.permissionRequired reqId
            { tool_name := call.tool_name,
              operation := "do you want to run this tool?",
              call := call,
              preview := preview })],
          cancelFired := w.2 }

/-- Result of the inner tool task `spawn_tool_exec`: the `ToolResult` it
returns, the claim manager afterwards (threaded explicitly to make visible
that no code path in `actions/tools.rs` writes to it), its action log, and
whether the cancellation token fired before the task produced its value. -/
structure ExecOut where
  result : ToolResult
  claims : ClaimManager
  log : List ToolAction
  cancelFired : Bool

/-- The final `tokio::select!` of `spawn_tool_exec` (lines 196-201): race
`tool.execute_json` against the cancellation token.  Both futures are
started, so the invocation is logged either way; under first-ready semantics
a token that fires mid-execution wins the race. -/
def executeWithCancel (tool : ToolDef) (call : ToolCall) (cm : ClaimManager)
    (cancelDuringExec : Bool) (log0 : List ToolAction) : ExecOut :=
  { result :=
      if cancelDuringExec then ToolResult.mkError "tool call was cancelled by the user"
      else tool.execJson call.parameters,
    claims := cm,
    log := log0 ++ [ToolAction.execTool tool.name call.parameters],
    cancelFired := cancelDuringExec }

/-- `spawn_tool_exec` from `actions/tools.rs` lines 172-203: `can_run` is
`capabilities().is_empty() || capabilities() == &[Read] || is_permitted(..)`
(short-circuiting, so the claim manager is consulted only when the first two
disjuncts fail), then `can_run || request_permission_if_needed(..)` (again
short-circuiting); a preview `Err` returns immediately; `!can_run` returns
`ToolResult::denied()`; otherwise execute under the cancellation race. -/
def spawn_tool_exec (tool : ToolDef) (call : ToolCall) (cm : ClaimManager)
    (interactive : Bool) (reqId : String) (env : ExecEnv) : ExecOut :=
  if tool.capabilities.isEmpty || tool.capabilities == [ToolCapability.read] then
    executeWithCancel tool call cm env.cancelDuringExec []
  else
    let consult := [ToolAction.consultClaims tool.name call.parameters]
    if cm.is_permitted tool.name call.parameters then
      executeWithCancel tool call cm env.cancelDuringExec consult
    else
      let perm := request_permission_if_needed call tool interactive reqId env.steps
      match perm.outcome with
      | RustResult.err previewError =>
          { result := previewError, claims := cm,
            log := consult ++ perm.log, cancelFired := perm.cancelFired }
      | RustResult.ok granted =>
          if granted then
            executeWithCancel tool call cm env.cancelDuringExec (consult ++ perm.log)
          else
            { result := ToolResult.denied, claims := cm,
              log := consult ++ perm.log, cancelFired := perm.cancelFired }

/-- `tool_exist` from `actions/tools.rs` lines 261-285: parse the raw
arguments string (`serde_json::from_str`, abstracted as `parse`), build the
`ToolCall`, and look the tool up by name. -/
def tool_exist (tools : List ToolDef) (tc : LlmToolCall)
    (parse : String → Option Json) : RustResult (ToolDef × ToolCall) ToolResult :=
  match parse tc.function.arguments with
  | none => RustResult.err (ToolResult.mkError "failed to parse tool parameters")
  | some params =>
      -- the source first builds `tool_call` (id, name, parsed params) and then
      -- searches the toolbox by `tool_call.tool_name == tc.function.name`
      match tools.find? (fun t => t.name == tc.function.name) with
      | none => RustResult.err (ToolResult.mkError ("tool not found: " ++ tc.function.name))
      | some tool => RustResult.ok (tool,
          { tool_call_id := tc.id, tool_name := tc.function.name, parameters := params })

/-- Result of one whole tool task `spawn_tool_static`: the `bool` the task
returns (`result.is_denied()`), the claim manager afterwards, and the action
log. -/
structure StaticOut where
  denied : Bool
  claims : ClaimManager
  log : List ToolAction

/-- `spawn_tool_static` from `actions/tools.rs` lines 78-168.  On
`tool_exist` failure: publish `ToolCallCompleted` with the error result and
a `ToolCall` whose parameters are `Null` (no start event, no trace append),
return `false`.  Otherwise: publish `ToolCallStarted`, run
`spawn_tool_exec`, race its join handle against the cancellation token
(first-ready semantics: a token that fired before the inner task finished
wins, yielding the cancellation error result), append the tool message to
the trace, publish `ToolCallCompleted`, and return `result.is_denied()`. -/
def spawn_tool_static (tools : List ToolDef) (tc : LlmToolCall)
    (parse : String → Option Json) (cm : ClaimManager)
    (interactive : Bool) (reqId : String) (env : ExecEnv) : StaticOut :=
  match tool_exist tools tc parse with
  | RustResult.err tool_result =>
      { denied := false, claims := cm,
        log :=
          if interactive then
            [ToolAction.publish (AgentEvent.toolCallCompleted
              { tool_call_id := tc.id, tool_name := tc.function.name, parameters := Json.null }
              tool_result)]
          else [] }
  | RustResult.ok (tool, call) =>
      let startLog :=
        if interactive then [ToolAction.publish (AgentEvent.toolCallStarted call)] else []
      let ex := spawn_tool_exec tool call cm interactive reqId env
      let result :=
        if ex.cancelFired then ToolResult.mkError "tool call was cancelled by the user"
        else ex.result
      let traceMsg := ChatMessage.tool call.tool_call_id (ToolResult.toString result)
      { denied := result.is_denied,
        claims := ex.claims,
        log := startLog ++ ex.log
          ++ [ToolAction.appendTrace traceMsg]
          ++ (if interactive then
                [ToolAction.publish (AgentEvent.toolCallCompleted call result)]
              else []) }

/-- Outcome of the batch-waiter `select!` in `spawn_tools` (lines 47-66):
either the shared cancellation token fired first, or every join handle
resolved — `some was_denied` for a task that finished, `none` for a join
error (its denial flag is skipped by the `if let Ok(..)` in the source). -/
inductive BatchOutcome where
  | cancelled
  | finished (joins : List (Option Bool))

/-- The waiter task spawned by `spawn_tools`: on cancellation, send nothing;
when all join handles resolve, fold their denial flags with `||` (skipping
join errors) and send one internal `ToolsCompleted` event. -/
def spawn_tools_wait : BatchOutcome → List InternalAgentEvent
  | BatchOutcome.cancelled => []
  | BatchOutcome.finished joins =>
      [InternalAgentEvent.toolsCompleted (joins.foldl
        (fun acc j =>
          match j with
          | some was_denied => acc || was_denied
          | none => acc)
        false)]

/-! ## The brain-result handler (`src/shai-core/src/agent/actions/brain.rs`) -/

/-- Externally visible actions of the main-loop brain-result handler, in
order: a trace append, a public event emission, a call to `spawn_tools`, a
state change (`set_state`). -/
inductive BrainAction where
  | appendTrace (m : ChatMessage)
  | emit (e : AgentEvent)
  | spawnTools (tool_calls : List LlmToolCall)
  | setState (s : InternalAgentState)

/-- Stand-in for the Rust `Debug` rendering used in
`format!("ChatMessage::Assistant expected, but got ... instead", message)`;
the checked properties do not depend on the exact rendering. -/
def ChatMessage.debugFmt : ChatMessage → String
  | .system c => "System(" ++ c ++ ")"
  | .user c => "User(" ++ c ++ ")"
  | .assistant _ _ _ => "Assistant(..)"
  | .tool id c => "Tool(" ++ id ++ "," ++ c ++ ")"

/-- `handle_brain_error` from `actions/brain.rs` lines 96-108 (the `Err`
branch): set the state to `Paused`, then emit a public `BrainResult` event
carrying the error. -/
def handle_brain_error (e : AgentError) : List BrainAction :=
  [BrainAction.setState InternalAgentState.paused,
   BrainAction.emit (AgentEvent.brainResult (RustResult.err e))]

/-- The `TokenUsage` emission of `process_next_step` (lines 69-74). -/
def token_usage_events : Option (Nat × Nat) → List BrainAction
  | some (i, o) => [BrainAction.emit (AgentEvent.tokenUsage i o)]
  | none => []

/-- `process_next_step` from `actions/brain.rs` lines 49-93.  An `Err`
result goes through `handle_brain_error`.  A decision whose message is not
`ChatMessage::Assistant` goes through `handle_brain_error` with
`InvalidResponse`.  Otherwise: append the assistant message to the trace,
emit the public `BrainResult` (and `TokenUsage` if present); if the message
carries tool calls, call `spawn_tools` (which sets the state to
`Processing("tools")`); else `flow` decides `Running` or `Paused`. -/
def process_next_step (result : RustResult ThinkerDecision AgentError) : List BrainAction :=
  match result with
  | RustResult.err e => handle_brain_error e
  | RustResult.ok d =>
      match d.message with
      | ChatMessage.assistant content reasoning tool_calls =>
          let message := ChatMessage.assistant content reasoning tool_calls
          [BrainAction.appendTrace message,
           BrainAction.emit (AgentEvent.brainResult (RustResult.ok message))]
          ++ token_usage_events d.token_usage
          ++ (let tool_calls_from_brain := tool_calls.getD []
              if tool_calls_from_brain.isEmpty then
                match d.flow with
                | ThinkerFlowControl.agentContinue =>
                    [BrainAction.setState InternalAgentState.running]
                | ThinkerFlowControl.agentPause =>
                    [BrainAction.setState InternalAgentState.paused]
              else
                [BrainAction.spawnTools tool_calls_from_brain,
                 BrainAction.setState (InternalAgentState.processing "tools")])
      | m => handle_brain_error (AgentError.invalidResponse
          ("ChatMessage::Assistant expected, but got " ++ ChatMessage.debugFmt m ++ " instead"))

/-! ## The starting state (`src/shai-core/src/agent/states/starting.rs`) -/

/-- `handle_agent_initialized` from `states/starting.rs` lines 25-33: move
to `Running` when the last trace message is a user message, else `Paused`. -/
def handle_agent_initialized (trace : List ChatMessage) : InternalAgentState :=
  match trace.getLast? with
  | some (ChatMessage.user _) => InternalAgentState.running
  | _ => InternalAgentState.paused

/-! ## Helper lemmas -/

/-- When `waitPermission` ends because the cancellation token fired, it does
not report the permission as granted. -/
lemma waitPermission_cancelled_not_granted (reqId : String) (steps : List WaitStep)
    (h : (waitPermission reqId steps).2 = true) :
    (waitPermission reqId steps).1 = false := by
  induction steps with
  | nil => simp [waitPermission] at h
  | cons s rest ih =>
      cases s with
      | cancelFired => simp [waitPermission]
      | recv e =>
          cases e <;> simp only [waitPermission] at h ⊢ <;> try exact ih h
          rename_i rid resp
          by_cases hrid : rid = reqId
          · simp [hrid] at h
          · simp only [if_neg hrid] at h ⊢
            exact ih h

/-- A tool whose capability list is empty or exactly `[Read]` takes the
fast path of `spawn_tool_exec` straight to execution. -/
lemma spawn_tool_exec_readonly (tool : ToolDef) (call : ToolCall) (cm : ClaimManager)
    (interactive : Bool) (reqId : String) (env : ExecEnv)
    (h : tool.capabilities = [] ∨ tool.capabilities = [ToolCapability.read]) :
    spawn_tool_exec tool call cm interactive reqId env
      = executeWithCancel tool call cm env.cancelDuringExec [] := by
  unfold spawn_tool_exec
  rcases h with h | h <;> rw [h] <;> rfl

/-- When the preview is not an `Error` result, `request_permission_if_needed`
publishes the permission request and reduces to the wait loop. -/
lemma request_permission_not_error (call : ToolCall) (tool : ToolDef)
    (reqId : String) (steps : List WaitStep)
    (hprev : ∀ e m, tool.previewJson call.parameters ≠ some (ToolResult.error e m)) :
    request_permission_if_needed call tool true reqId steps =
      { outcome := RustResult.ok (waitPermission reqId steps).1,
        log := [ToolAction.publish (AgentEvent.permissionRequired reqId
          { tool_name := call.tool_name,
            operation := "do you want to run this tool?",
            call := call,
            preview := tool.previewJson call.parameters })],
        cancelFired := (waitPermission reqId steps).2 } := by
  unfold request_permission_if_needed
  rcases h : tool.previewJson call.parameters with _ | res
  · simp [h]
  · cases res with
    | success o m => simp [h]
    | error e m => exact absurd h (hprev e m)
    | denied => simp [h]

/-- The `ToolResult` that `spawn_tool_static` settles on after racing the
inner task against the cancellation token (the value bound to `result` at
lines 129-143 of `actions/tools.rs`). -/
def tool_task_result (tool : ToolDef) (call : ToolCall) (cm : ClaimManager)
    (interactive : Bool) (reqId : String) (env : ExecEnv) : ToolResult :=
  if (spawn_tool_exec tool call cm interactive reqId env).cancelFired then
    ToolResult.mkError "tool call was cancelled by the user"
  else (spawn_tool_exec tool call cm interactive reqId env).result

/-- Characterization of `spawn_tool_static` when `tool_exist` succeeds. -/
lemma spawn_tool_static_ok (tools : List ToolDef) (tc : LlmToolCall)
    (parse : String → Option Json) (cm : ClaimManager)
    (interactive : Bool) (reqId : String) (env : ExecEnv)
    (tool : ToolDef) (call : ToolCall)
    (hexist : tool_exist tools tc parse = RustResult.ok (tool, call)) :
    spawn_tool_static tools tc parse cm interactive reqId env =
      { denied := (tool_task_result tool call cm interactive reqId env).is_denied,
        claims := (spawn_tool_exec tool call cm interactive reqId env).claims,
        log := (if interactive then [ToolAction.publish (AgentEvent.toolCallStarted call)] else [])
          ++ (spawn_tool_exec tool call cm interactive reqId env).log
          ++ [ToolAction.appendTrace (ChatMessage.tool call.tool_call_id
                (ToolResult.toString (tool_task_result tool call cm interactive reqId env)))]
          ++ (if interactive then
                [ToolAction.publish (AgentEvent.toolCallCompleted call
                  (tool_task_result tool call cm interactive reqId env))]
              else []) } := by
  unfold spawn_tool_static tool_task_result
  rw [hexist]

/-- Characterization of `spawn_tool_exec` on the permission-request path:
capabilities neither empty nor `[Read]`, no pre-existing claim, interactive
session, preview not an error. -/
lemma spawn_tool_exec_permission_wait (tool : ToolDef) (call : ToolCall)
    (cm : ClaimManager) (reqId : String) (env : ExecEnv)
    (hro : (tool.capabilities.isEmpty || tool.capabilities == [ToolCapability.read]) = false)
    (hperm : cm.is_permitted tool.name call.parameters = false)
    (hprev : ∀ e m, tool.previewJson call.parameters ≠ some (ToolResult.error e m)) :
    spawn_tool_exec tool call cm true reqId env =
      (if (waitPermission reqId env.steps).1 then
        executeWithCancel tool call cm env.cancelDuringExec
          [ToolAction.consultClaims tool.name call.parameters,
           ToolAction.publish (AgentEvent.permissionRequired reqId
             { tool_name := call.tool_name,
               operation := "do you want to run this tool?",
               call := call,
               preview := tool.previewJson call.parameters })]
      else
        { result := ToolResult.denied, claims := cm,
          log := [ToolAction.consultClaims tool.name call.parameters,
            ToolAction.publish (AgentEvent.permissionRequired reqId
              { tool_name := call.tool_name,
                operation := "do you want to run this tool?",
                call := call,
                preview := tool.previewJson call.parameters })],
          cancelFired := (waitPermission reqId env.steps).2 }) := by
  unfold spawn_tool_exec
  rw [request_permission_not_error call tool reqId env.steps hprev]
  simp only [hro, hperm, Bool.false_eq_true, if_false, List.cons_append, List.nil_append,
    List.singleton_append]

/-- Folding the denial flags of successfully joined tasks is the Boolean OR
of the flags. -/
lemma foldl_denied_or (ds : List Bool) (acc : Bool) :
    List.foldl
      (fun acc j =>
        match j with
        | some was_denied => acc || was_denied
        | none => acc)
      acc (ds.map some) = (acc || ds.any (fun b => b)) := by
  induction ds generalizing acc with
  | nil => simp
  | cons d rest ih =>
      have hstep :
          (fun (acc : Bool) (j : Option Bool) =>
            match j with
            | some was_denied => acc || was_denied
            | none => acc) acc (some d) = (acc || d) := rfl
      simp only [List.map_cons, List.foldl_cons, hstep, ih, List.any_cons, Bool.or_assoc]

/-! ## Concrete fixtures shared by witnesses and counterexamples -/

/-- Example read-only tool (capability list `[Read]`). -/
def lsTool : ToolDef :=
  { name := "ls", capabilities := [ToolCapability.read],
    execJson := fun _ => ToolResult.mkSuccess "a b",
    previewJson := fun _ => none }

/-- Example write tool (capability list `[Write]`), no preview. -/
def wrTool : ToolDef :=
  { name := "write_file", capabilities := [ToolCapability.write],
    execJson := fun _ => ToolResult.mkSuccess "written",
    previewJson := fun _ => none }

/-- Fresh claim manager: no sudo, no grants. -/
def cm0 : ClaimManager := { sudo_enabled := false, grants := [], always_grants := [] }

/-- Example parameters JSON value. -/
def paramsA : Json := Json.obj [("path", Json.str "/a")]

/-- Stand-in for `serde_json::from_str` that parses the example arguments. -/
def parseA : String → Option Json := fun _ => some paramsA

/-- Example brain tool call naming the write tool. -/
def tcWrite : LlmToolCall :=
  { id := "c1", function := { name := "write_file", arguments := "args" } }

/-- Example brain tool call naming the read-only tool. -/
def tcLs : LlmToolCall :=
  { id := "c2", function := { name := "ls", arguments := "args" } }

/-- The resolved `ToolCall` for `tcWrite` under `parseA`. -/
def callWrite : ToolCall :=
  { tool_call_id := "c1", tool_name := "write_file", parameters := paramsA }

/-- The resolved `ToolCall` for `tcLs` under `parseA`. -/
def callLs : ToolCall :=
  { tool_call_id := "c2", tool_name := "ls", parameters := paramsA }

/-- Environment where the user answers `AllowAlways` to request `"r1"`. -/
def envAllowAlways : ExecEnv :=
  { steps := [WaitStep.recv
      (InternalAgentEvent.permissionResponseReceived "r1" PermissionResponse.allowAlways)],
    cancelDuringExec := false }

/-- Environment where the cancellation token fires while the task awaits the
permission response. -/
def envCancel : ExecEnv := { steps := [WaitStep.cancelFired], cancelDuringExec := false }

/-- Environment with no arrivals at all. -/
def envQuiet : ExecEnv := { steps := [], cancelDuringExec := false }

/-! ## C4 -/

/-- **C4.** For a batch of spawned tool tasks sharing one cancellation
token: when all tasks finish without the token firing, the waiter publishes
exactly one internal `ToolsCompleted` event whose `any_denied` flag is the
Boolean OR of the per-task denial flags; when the shared token fires first,
no `ToolsCompleted` event is published. -/
theorem C4_tools_completed_aggregation (ds : List Bool) :
    spawn_tools_wait (BatchOutcome.finished (ds.map some))
        = [InternalAgentEvent.toolsCompleted (ds.any (fun b => b))]
      ∧ spawn_tools_wait BatchOutcome.cancelled = [] := by
  refine ⟨?_, rfl⟩
  simp only [spawn_tools_wait]
  rw [foldl_denied_or]
  simp

/-! ## C3 -/

/-- **C3.** A located call of a tool whose capability list is empty or
exactly `[Read]` proceeds to execution without consulting the claim manager
and without ever publishing a `PermissionRequired` event — for every
claim-manager state (so in particular regardless of sudo), interactivity and
scheduling environment. -/
theorem C3_read_only_tools_skip_permission (tools : List ToolDef) (tc : LlmToolCall)
    (parse : String → Option Json) (cm : ClaimManager) (interactive : Bool)
    (reqId : String) (env : ExecEnv) (tool : ToolDef) (call : ToolCall)
    (hexist : tool_exist tools tc parse = RustResult.ok (tool, call))
    (hcaps : tool.capabilities = [] ∨ tool.capabilities = [ToolCapability.read]) :
    (∀ n p, ToolAction.consultClaims n p
        ∉ (spawn_tool_static tools tc parse cm interactive reqId env).log)
    ∧ (∀ id req, ToolAction.publish (AgentEvent.permissionRequired id req)
        ∉ (spawn_tool_static tools tc parse cm interactive reqId env).log)
    ∧ ToolAction.execTool tool.name call.parameters
        ∈ (spawn_tool_static tools tc parse cm interactive reqId env).log := by
  rw [spawn_tool_static_ok tools tc parse cm interactive reqId env tool call hexist]
  unfold tool_task_result
  rw [spawn_tool_exec_readonly tool call cm interactive reqId env hcaps]
  unfold executeWithCancel
  refine ⟨?_, ?_, ?_⟩ <;> cases interactive <;> simp

/-- Witness for C3: a concrete run of the read-only `ls` tool with sudo off
and an empty claim store executes the tool. -/
theorem C3_read_only_tools_skip_permission_witness :
    tool_exist [lsTool] tcLs parseA = RustResult.ok (lsTool, callLs)
    ∧ ToolAction.execTool "ls" paramsA
        ∈ (spawn_tool_static [lsTool] tcLs parseA cm0 true "r1" envQuiet).log := by
  refine ⟨rfl, ?_⟩
  exact (C3_read_only_tools_skip_permission [lsTool] tcLs parseA cm0 true "r1" envQuiet
    lsTool callLs rfl (Or.inr rfl)).2.2

/-! ## C5 -/

/-- **C5.** When the parameters JSON fails to parse or the named tool is not
in the toolbox, the task publishes a single `ToolCallCompleted` event
carrying an `Error` result (with message `tool not found: <name>` in the
missing-tool case); the singleton log shows that no `ToolCallStarted` is
published, nothing is appended to the trace and no tool is executed; and the
task returns `denied = false`. -/
theorem C5_locate_failure_completes_without_start (tools : List ToolDef)
    (tc : LlmToolCall) (parse : String → Option Json) (cm : ClaimManager)
    (reqId : String) (env : ExecEnv) (err_result : ToolResult)
    (hexist : tool_exist tools tc parse = RustResult.err err_result) :
    (spawn_tool_static tools tc parse cm true reqId env).denied = false
    ∧ (spawn_tool_static tools tc parse cm true reqId env).log
        = [ToolAction.publish (AgentEvent.toolCallCompleted
            { tool_call_id := tc.id, tool_name := tc.function.name, parameters := Json.null }
            err_result)]
    ∧ err_result.is_error = true
    ∧ (∀ params, parse tc.function.arguments = some params →
        err_result = ToolResult.mkError ("tool not found: " ++ tc.function.name)) := by
  refine ⟨?_, ?_, ?_, ?_⟩
  · unfold spawn_tool_static
    rw [hexist]
  · unfold spawn_tool_static
    rw [hexist]
    rfl
  · unfold tool_exist at hexist
    rcases hp : parse tc.function.arguments with _ | params <;> rw [hp] at hexist
    · injection hexist with h
      rw [← h]
      rfl
    · rcases hf : List.find? (fun t => t.name == tc.function.name) tools with _ | tool <;>
        rw [hf] at hexist
      · injection hexist with h
        rw [← h]
        rfl
      · exact RustResult.noConfusion hexist
  · intro params hp
    unfold tool_exist at hexist
    rw [hp] at hexist
    rcases hf : List.find? (fun t => t.name == tc.function.name) tools with _ | tool <;>
      rw [hf] at hexist
    · injection hexist with h
      exact h.symm
    · exact RustResult.noConfusion hexist

/-- Witness for C5: calling the missing tool `write_file` on an empty
toolbox produces exactly one completed event with the not-found error. -/
theorem C5_locate_failure_completes_without_start_witness :
    tool_exist [] tcWrite parseA
      = RustResult.err (ToolResult.mkError "tool not found: write_file")
    ∧ (spawn_tool_static [] tcWrite parseA cm0 true "r1" envQuiet).denied = false
    ∧ (spawn_tool_static [] tcWrite parseA cm0 true "r1" envQuiet).log
        = [ToolAction.publish (AgentEvent.toolCallCompleted
            { tool_call_id := "c1", tool_name := "write_file", parameters := Json.null }
            (ToolResult.mkError "tool not found: write_file"))] := by
  have h := C5_locate_failure_completes_without_start [] tcWrite parseA cm0 "r1" envQuiet
    (ToolResult.mkError "tool not found: write_file") rfl
  exact ⟨rfl, h.1, h.2.1⟩

/-! ## C6 -/

/-- **C6.** Every tool call that reaches the execute phase (tool located,
parameters parsed) appends the tool message
`(call_id, Text(result.to_string()))` to the trace strictly before the
`ToolCallCompleted` event for that call is published: in the action log the
append is the second-to-last action and the publication the last. -/
theorem C6_trace_append_precedes_completed_event (tools : List ToolDef)
    (tc : LlmToolCall) (parse : String → Option Json) (cm : ClaimManager)
    (reqId : String) (env : ExecEnv) (tool : ToolDef) (call : ToolCall)
    (hexist : tool_exist tools tc parse = RustResult.ok (tool, call)) :
    (spawn_tool_static tools tc parse cm true reqId env).log
      = ([ToolAction.publish (AgentEvent.toolCallStarted call)]
          ++ (spawn_tool_exec tool call cm true reqId env).log)
        ++ [ToolAction.appendTrace (ChatMessage.tool call.tool_call_id
              (ToolResult.toString (tool_task_result tool call cm true reqId env))),
            ToolAction.publish (AgentEvent.toolCallCompleted call
              (tool_task_result tool call cm true reqId env))] := by
  rw [spawn_tool_static_ok tools tc parse cm true reqId env tool call hexist]
  simp

/-- Witness for C6: in the concrete `ls` run the trace append of the tool
message immediately precedes the completed-event publication. -/
theorem C6_trace_append_precedes_completed_event_witness :
    (spawn_tool_static [lsTool] tcLs parseA cm0 true "r1" envQuiet).log
      = [ToolAction.publish (AgentEvent.toolCallStarted callLs),
         ToolAction.execTool "ls" paramsA,
         ToolAction.appendTrace (ChatMessage.tool "c2" "a b"),
         ToolAction.publish (AgentEvent.toolCallCompleted callLs
           (ToolResult.mkSuccess "a b"))] := by
  have h := C6_trace_append_precedes_completed_event [lsTool] tcLs parseA cm0 "r1" envQuiet
    lsTool callLs rfl
  exact h.trans rfl

/-! ## C1 -/

/-- The wait environment in which the user answers `AllowAlways` to the
request id `reqId` as the first arrival. -/
def envAllowAlwaysFor (reqId : String) : ExecEnv :=
  { steps := [WaitStep.recv
      (InternalAgentEvent.permissionResponseReceived reqId PermissionResponse.allowAlways)],
    cancelDuringExec := false }

/-- **C1 (counterexample).** Refutes: "when the user's response is
`AllowAlways` … a persistent claim for (tool name, parameter fingerprint) is
recorded in the claim manager, so that `is_permitted` returns true for a
later call with the same tool and logically identical parameters."  In the
concrete `write_file` run answered with `AllowAlways` the tool does
execute, but the claim manager afterwards is the unchanged `cm0` and
`is_permitted` on the identical tool name and parameters is still `false`. -/
theorem C1_counterexample :
    (spawn_tool_exec wrTool callWrite cm0 true "r1" envAllowAlways).result
        = ToolResult.mkSuccess "written"
    ∧ (spawn_tool_exec wrTool callWrite cm0 true "r1" envAllowAlways).claims = cm0
    ∧ (spawn_tool_exec wrTool callWrite cm0 true "r1"
        envAllowAlways).claims.is_permitted "write_file" paramsA = false := by
  exact ⟨rfl, rfl, rfl⟩

/-- **C1 (amended).** Whenever a permission request resolves with
`AllowAlways` (tool not read-only, no prior claim, interactive session,
preview not an error, no cancellation), the tool executes — but the claim
manager is returned unchanged: no claim is recorded, and `is_permitted` for
a later call with the same tool and logically identical parameters is still
`false`. -/
theorem C1_allow_always_executes_but_records_no_claim (tool : ToolDef)
    (call : ToolCall) (cm : ClaimManager) (reqId : String)
    (hro : (tool.capabilities.isEmpty || tool.capabilities == [ToolCapability.read]) = false)
    (hperm : cm.is_permitted tool.name call.parameters = false)
    (hprev : ∀ e m, tool.previewJson call.parameters ≠ some (ToolResult.error e m)) :
    (spawn_tool_exec tool call cm true reqId (envAllowAlwaysFor reqId)).result
        = tool.execJson call.parameters
    ∧ ToolAction.execTool tool.name call.parameters
        ∈ (spawn_tool_exec tool call cm true reqId (envAllowAlwaysFor reqId)).log
    ∧ (spawn_tool_exec tool call cm true reqId (envAllowAlwaysFor reqId)).claims = cm
    ∧ (spawn_tool_exec tool call cm true reqId
        (envAllowAlwaysFor reqId)).claims.is_permitted tool.name call.parameters = false := by
  have hwait : waitPermission reqId (envAllowAlwaysFor reqId).steps = (true, false) := by
    simp [envAllowAlwaysFor, waitPermission, PermissionResponse.grantsExecution]
  have hexec := spawn_tool_exec_permission_wait tool call cm reqId (envAllowAlwaysFor reqId)
    hro hperm hprev
  rw [hwait] at hexec
  simp only [if_true] at hexec
  rw [hexec]
  unfold executeWithCancel
  refine ⟨rfl, ?_, rfl, hperm⟩
  simp [envAllowAlwaysFor]

/-- Witness for the amended C1: the concrete `write_file` run answered with
`AllowAlways` executes the tool, and the identical later call is still not
permitted. -/
theorem C1_allow_always_executes_but_records_no_claim_witness :
    (spawn_tool_exec wrTool callWrite cm0 true "r1" (envAllowAlwaysFor "r1")).result
        = ToolResult.mkSuccess "written"
    ∧ (spawn_tool_exec wrTool callWrite cm0 true "r1"
        (envAllowAlwaysFor "r1")).claims.is_permitted "write_file" paramsA = false := by
  have h := C1_allow_always_executes_but_records_no_claim wrTool callWrite cm0 "r1"
    rfl rfl (fun e m hc => Option.noConfusion hc)
  exact ⟨h.1.trans rfl, h.2.2.2⟩

/-! ## C2 -/

/-- **C2 (counterexample).** Refutes the exact message: the claim states the
result is `Error("cancelled by user")`, but in the concrete run where the
cancellation token fires during the permission wait the published
`ToolCallCompleted` carries `Error("tool call was cancelled by the user")`,
a different string. -/
theorem C2_counterexample :
    (spawn_tool_static [wrTool] tcWrite parseA cm0 true "r1" envCancel).log
      = [ToolAction.publish (AgentEvent.toolCallStarted callWrite),
         ToolAction.consultClaims "write_file" paramsA,
         ToolAction.publish (AgentEvent.permissionRequired "r1"
           { tool_name := "write_file",
             operation := "do you want to run this tool?",
             call := callWrite, preview := none }),
         ToolAction.appendTrace (ChatMessage.tool "c1"
           "The tool failed with the following error: tool call was cancelled by the user"),
         ToolAction.publish (AgentEvent.toolCallCompleted callWrite
           (ToolResult.mkError "tool call was cancelled by the user"))]
    ∧ ToolResult.mkError "tool call was cancelled by the user"
        ≠ ToolResult.mkError "cancelled by user" := by
  refine ⟨rfl, ?_⟩
  intro h
  injection h with h1 h2
  exact absurd h1 (by decide)

/-- **C2 (amended).** For every tool call awaiting a permission response, if
the shared cancellation token fires before a matching
`PermissionResponseReceived` arrives, then the call's result is
`Error("tool call was cancelled by the user")` — it is not `Denied`
(the task reports `denied = false`) and the tool is never executed (no
`execTool` action appears in the log). -/
theorem C2_cancellation_during_permission_wait (tools : List ToolDef)
    (tc : LlmToolCall) (parse : String → Option Json) (cm : ClaimManager)
    (reqId : String) (env : ExecEnv) (tool : ToolDef) (call : ToolCall)
    (hexist : tool_exist tools tc parse = RustResult.ok (tool, call))
    (hro : (tool.capabilities.isEmpty || tool.capabilities == [ToolCapability.read]) = false)
    (hperm : cm.is_permitted tool.name call.parameters = false)
    (hprev : ∀ e m, tool.previewJson call.parameters ≠ some (ToolResult.error e m))
    (hcancel : (waitPermission reqId env.steps).2 = true) :
    tool_task_result tool call cm true reqId env
        = ToolResult.mkError "tool call was cancelled by the user"
    ∧ (spawn_tool_static tools tc parse cm true reqId env).denied = false
    ∧ (spawn_tool_static tools tc parse cm true reqId env).log
        = [ToolAction.publish (AgentEvent.toolCallStarted call),
           ToolAction.consultClaims tool.name call.parameters,
           ToolAction.publish (AgentEvent.permissionRequired reqId
             { tool_name := call.tool_name,
               operation := "do you want to run this tool?",
               call := call,
               preview := tool.previewJson call.parameters }),
           ToolAction.appendTrace (ChatMessage.tool call.tool_call_id
             "The tool failed with the following error: tool call was cancelled by the user"),
           ToolAction.publish (AgentEvent.toolCallCompleted call
             (ToolResult.mkError "tool call was cancelled by the user"))] := by
  have hw := waitPermission_cancelled_not_granted reqId env.steps hcancel
  have hexec := spawn_tool_exec_permission_wait tool call cm reqId env hro hperm hprev
  rw [hw, hcancel] at hexec
  simp only [Bool.false_eq_true, if_false] at hexec
  have htr : tool_task_result tool call cm true reqId env
      = ToolResult.mkError "tool call was cancelled by the user" := by
    unfold tool_task_result
    rw [hexec]
    rfl
  refine ⟨htr, ?_, ?_⟩
  · rw [spawn_tool_static_ok tools tc parse cm true reqId env tool call hexist, htr]
    rfl
  · rw [spawn_tool_static_ok tools tc parse cm true reqId env tool call hexist, htr, hexec]
    rfl

/-- Witness for the amended C2: the concrete `write_file` run whose
permission wait is cut short by cancellation yields the cancellation error
result and reports `denied = false`. -/
theorem C2_cancellation_during_permission_wait_witness :
    tool_task_result wrTool callWrite cm0 true "r1" envCancel
        = ToolResult.mkError "tool call was cancelled by the user"
    ∧ (spawn_tool_static [wrTool] tcWrite parseA cm0 true "r1" envCancel).denied = false := by
  have h := C2_cancellation_during_permission_wait [wrTool] tcWrite parseA cm0 "r1" envCancel
    wrTool callWrite rfl rfl rfl (fun e m hc => Option.noConfusion hc) rfl
  exact ⟨h.1, h.2.1⟩

/-! ## C7 -/

/-- **C7.** For every successful brain decision: when the assistant message
carries one or more tool calls, the handler's behaviour is the same for both
flow values (flow is ignored) and ends by dispatching the tools and entering
`Processing("tools")`; when the message carries no tool calls (`None` or an
empty list), `Continue` ends in `Running` and `Pause` ends in `Paused`.  In
every case the very first action is appending the assistant message to the
trace. -/
theorem C7_brain_decision_dispatch (c r : Option String) (tu : Option (Nat × Nat))
    (flow : ThinkerFlowControl) (tcs : List LlmToolCall)
    (otc : Option (List LlmToolCall)) :
    (tcs ≠ [] →
      process_next_step (RustResult.ok
          { message := ChatMessage.assistant c r (some tcs), flow := flow, token_usage := tu })
        = [BrainAction.appendTrace (ChatMessage.assistant c r (some tcs)),
           BrainAction.emit (AgentEvent.brainResult
             (RustResult.ok (ChatMessage.assistant c r (some tcs))))]
          ++ token_usage_events tu
          ++ [BrainAction.spawnTools tcs,
              BrainAction.setState (InternalAgentState.processing "tools")])
    ∧ (otc.getD [] = [] →
      process_next_step (RustResult.ok
          { message := ChatMessage.assistant c r otc,
            flow := ThinkerFlowControl.agentContinue, token_usage := tu })
        = [BrainAction.appendTrace (ChatMessage.assistant c r otc),
           BrainAction.emit (AgentEvent.brainResult
             (RustResult.ok (ChatMessage.assistant c r otc)))]
          ++ token_usage_events tu
          ++ [BrainAction.setState InternalAgentState.running])
    ∧ (otc.getD [] = [] →
      process_next_step (RustResult.ok
          { message := ChatMessage.assistant c r otc,
            flow := ThinkerFlowControl.agentPause, token_usage := tu })
        = [BrainAction.appendTrace (ChatMessage.assistant c r otc),
           BrainAction.emit (AgentEvent.brainResult
             (RustResult.ok (ChatMessage.assistant c r otc)))]
          ++ token_usage_events tu
          ++ [BrainAction.setState InternalAgentState.paused]) := by
  refine ⟨?_, ?_, ?_⟩
  · intro htcs
    cases tcs with
    | nil => exact absurd rfl htcs
    | cons a as => rfl
  · intro hno
    cases otc with
    | none => rfl
    | some l =>
        simp only [Option.getD_some] at hno
        subst hno
        rfl
  · intro hno
    cases otc with
    | none => rfl
    | some l =>
        simp only [Option.getD_some] at hno
        subst hno
        rfl

/-- Witness for C7: a concrete decision with one tool call dispatches the
tools, and a concrete tool-call-free decision with `Pause` pauses; both
append the assistant message first. -/
theorem C7_brain_decision_dispatch_witness :
    process_next_step (RustResult.ok
        { message := ChatMessage.assistant (some "run it") none (some [tcWrite]),
          flow := ThinkerFlowControl.agentPause, token_usage := none })
      = [BrainAction.appendTrace (ChatMessage.assistant (some "run it") none (some [tcWrite])),
         BrainAction.emit (AgentEvent.brainResult
           (RustResult.ok (ChatMessage.assistant (some "run it") none (some [tcWrite])))),
         BrainAction.spawnTools [tcWrite],
         BrainAction.setState (InternalAgentState.processing "tools")]
    ∧ process_next_step (RustResult.ok
        { message := ChatMessage.assistant (some "pong") none none,
          flow := ThinkerFlowControl.agentPause, token_usage := none })
      = [BrainAction.appendTrace (ChatMessage.assistant (some "pong") none none),
         BrainAction.emit (AgentEvent.brainResult
           (RustResult.ok (ChatMessage.assistant (some "pong") none none))),
         BrainAction.setState InternalAgentState.paused] := by
  have h1 := (C7_brain_decision_dispatch (some "run it") none none
    ThinkerFlowControl.agentPause [tcWrite] none).1 (by intro hc; cases hc)
  have h2 := (C7_brain_decision_dispatch (some "pong") none none
    ThinkerFlowControl.agentPause [] none).2.2 rfl
  exact ⟨h1.trans rfl, h2.trans rfl⟩

/-! ## C10 -/

/-- **C10.** When the brain returns `Ok` with a decision whose message is
not an `Assistant` message, the handler sets the state to `Paused` and emits
a `BrainResult` event carrying an `InvalidResponse` error — and nothing
else: no trace append and no tool dispatch appear in the action log. -/
theorem C10_non_assistant_decision_pauses (m : ChatMessage)
    (flow : ThinkerFlowControl) (tu : Option (Nat × Nat))
    (hna : ∀ c r tcs, m ≠ ChatMessage.assistant c r tcs) :
    process_next_step (RustResult.ok { message := m, flow := flow, token_usage := tu })
      = [BrainAction.setState InternalAgentState.paused,
         BrainAction.emit (AgentEvent.brainResult (RustResult.err
           (AgentError.invalidResponse
             ("ChatMessage::Assistant expected, but got "
               ++ ChatMessage.debugFmt m ++ " instead"))))] := by
  cases m with
  | assistant c r tcs => exact absurd rfl (hna c r tcs)
  | system s => rfl
  | user s => rfl
  | tool a b => rfl

/-- Witness for C10: a decision carrying a `User` message pauses the agent
with an `InvalidResponse` brain-result event. -/
theorem C10_non_assistant_decision_pauses_witness :
    process_next_step (RustResult.ok
        { message := ChatMessage.user "hello", flow := ThinkerFlowControl.agentContinue,
          token_usage := none })
      = [BrainAction.setState InternalAgentState.paused,
         BrainAction.emit (AgentEvent.brainResult (RustResult.err
           (AgentError.invalidResponse
             "ChatMessage::Assistant expected, but got User(hello) instead")))] := by
  have h := C10_non_assistant_decision_pauses (ChatMessage.user "hello")
    ThinkerFlowControl.agentContinue none (fun c r tcs hc => ChatMessage.noConfusion hc)
  exact h.trans rfl

/-! ## C8 -/

/-- **C8.** On `AgentInitialized`, a `Starting` agent moves to `Running`
exactly when the last trace message is a user message, and to `Paused`
otherwise — including on the empty trace. -/
theorem C8_initial_state_from_last_message (pre : List ChatMessage)
    (m : ChatMessage) (c : String) :
    handle_agent_initialized [] = InternalAgentState.paused
    ∧ handle_agent_initialized (pre ++ [ChatMessage.user c]) = InternalAgentState.running
    ∧ ((∀ s, m ≠ ChatMessage.user s) →
        handle_agent_initialized (pre ++ [m]) = InternalAgentState.paused) := by
  refine ⟨rfl, ?_, ?_⟩
  · unfold handle_agent_initialized
    rw [List.getLast?_concat]
  · intro hm
    unfold handle_agent_initialized
    rw [List.getLast?_concat]
    cases m with
    | user s => exact absurd rfl (hm s)
    | system s => rfl
    | assistant a b d => rfl
    | tool a b => rfl

/-- Witness for C8: empty trace pauses, trailing user message runs,
trailing assistant message pauses. -/
theorem C8_initial_state_from_last_message_witness :
    handle_agent_initialized [] = InternalAgentState.paused
    ∧ handle_agent_initialized [ChatMessage.user "ping"] = InternalAgentState.running
    ∧ handle_agent_initialized [ChatMessage.user "ping",
        ChatMessage.assistant (some "pong") none none] = InternalAgentState.paused := by
  refine ⟨(C8_initial_state_from_last_message [] (ChatMessage.user "x") "x").1, ?_, ?_⟩
  · exact (C8_initial_state_from_last_message [] (ChatMessage.user "x") "ping").2.1
  · exact (C8_initial_state_from_last_message [ChatMessage.user "ping"]
      (ChatMessage.assistant (some "pong") none none) "x").2.2
      (fun s hc => ChatMessage.noConfusion hc)

/-! ## C9 -/

/-- **C9.** `execute_json` is a total function (so it cannot panic) and on
deserialization failure returns an `Error` result with the fixed message
prefix `Parameter deserialization failed: ` followed by the serde error —
without invoking `execute`: the outcome is identical for any two `execute`
implementations. -/
theorem C9_execute_json_total_on_parse_failure (Params : Type)
    (caps : List ToolCapability) (parse : Json → RustResult Params String)
    (exec1 exec2 : Params → ToolResult) (params : Json) (e : String)
    (hp : parse params = RustResult.err e) :
    TypedTool.execute_json { capabilities := caps, parseParams := parse, executeTyped := exec1 } params
        = ToolResult.mkError ("Parameter deserialization failed: " ++ e)
    ∧ TypedTool.execute_json { capabilities := caps, parseParams := parse, executeTyped := exec1 } params
        = TypedTool.execute_json { capabilities := caps, parseParams := parse, executeTyped := exec2 } params := by
  constructor <;> simp [TypedTool.execute_json, hp]

/-- A parse function that always fails, standing in for a serde error. -/
def badParse : Json → RustResult Nat String := fun _ => RustResult.err "missing field x"

/-- A typed execute implementation returning success. -/
def execRan : Nat → ToolResult := fun _ => ToolResult.mkSuccess "ran"

/-- A typed execute implementation returning denied. -/
def execDen : Nat → ToolResult := fun _ => ToolResult.denied

/-- Witness for C9: on a failing parse the result is the fixed error message
and does not depend on the execute implementation. -/
theorem C9_execute_json_total_on_parse_failure_witness :
    TypedTool.execute_json { capabilities := [], parseParams := badParse, executeTyped := execRan } Json.null
        = ToolResult.mkError "Parameter deserialization failed: missing field x"
    ∧ TypedTool.execute_json { capabilities := [], parseParams := badParse, executeTyped := execRan } Json.null
        = TypedTool.execute_json { capabilities := [], parseParams := badParse, executeTyped := execDen } Json.null := by
  have h := C9_execute_json_total_on_parse_failure Nat [] badParse execRan execDen
    Json.null "missing field x" rfl
  exact ⟨h.1.trans rfl, h.2⟩
